import Mathlib

/-!
Verification development for the clustering-evaluation library of the
sensemaking-tools repository (`library/evals/clustering_evals/evals_lib.py`,
with the legacy copy `evals/clustering_evals/evals_lib.py`).

The Python code is shallowly embedded over lists:
* a pandas DataFrame of comments becomes a `List Record`;
* the `topics` column value of one record is a `List String`;
* the embedding provider and cosine-distance/similarity functions live in
  `embeddings_lib.py` and call an external API, so they are taken as oracle
  parameters (`d : String → String → ℚ`, `emb : String → List ℚ`, ...);
  distances are modelled as rationals;
* Python float NaN (and the empty-`np.mean` NaN) is modelled as `none` in
  `Option ℚ`; fallible code (`IndexError`, `ZeroDivisionError`) returns
  `Except PyError`.
-/

namespace SensemakingEvals

/-- Python `s.split(sep)` for a one-character separator, on `List Char`:
`split("") = [""]`, `split(";") = ["", ""]`, `split("a;b") = ["a", "b"]`. -/
def pySplitChar (sep : Char) : List Char → List (List Char)
  | [] => [[]]
  | c :: rest =>
      if c = sep then [] :: pySplitChar sep rest
      else
        match pySplitChar sep rest with
        | [] => [[c]]
        | seg :: segs => (c :: seg) :: segs

/-- Python `s.split(sep)` on `String` (one-character separator). -/
def pySplitStr (sep : Char) (s : String) : List String :=
  (pySplitChar sep s.data).map (fun l => ⟨l⟩)

/-- Python `seg.split(":")[0]`: the text before the first colon
(the whole segment when it has no colon). -/
def beforeFirstColon (seg : String) : String :=
  (pySplitStr ':' seg).headD ""

/-- Python `x ∈ acc`-guarded accumulation: deduplicate keeping the first
occurrence of each element, preserving order.  Models both pandas
`Series.unique()` (first-occurrence order) and Python `list(set(...))`
(whose order the library never relies on). -/
def uniqueFirst (l : List String) : List String :=
  l.foldl (fun acc x => if x ∈ acc then acc else acc ++ [x]) []

/-- Model of `evals_lib.convert_topics_col_to_list`, per entry of the `topics` column:
`x.split(";")`, then `[i.split(":")[0] for i in x]`, then `list(set(...))`. -/
def convertTopicsEntry (s : String) : List String :=
  uniqueFirst ((pySplitStr ';' s).map beforeFirstColon)

/-- One row of a comments DataFrame: the `comment-id`, `comment_text`
and (already parsed) `topics` columns. -/
structure Record where
  commentId : Int
  commentText : String
  topics : List String
  deriving DecidableEq, Repr

/-- Errors the Python code can raise in `get_pairwise_categorization_diffs`:
`.iloc[0]` on an empty selection (`IndexError`) and division by
`df1.shape[0] = 0` (`ZeroDivisionError`). -/
inductive PyError where
  | indexError
  | zeroDivisionError
  deriving DecidableEq, Repr

/-- Model of `len(set(a) ^ set(b)) >= 1`: the symmetric difference of the two topic
sets is non-empty. -/
def symmDiffNonempty (a b : List String) : Bool :=
  decide ((∃ x ∈ a, x ∉ b) ∨ (∃ x ∈ b, x ∉ a))

/-- The loop of `get_pairwise_categorization_diffs`: iterate over the rows of
`df1`; for each row select the rows of `df2` with equal `comment-id` and take
the first (`IndexError` when there is none); count the row when the symmetric
difference of the two topic sets is non-empty. -/
def countDiffRows (df2 : List Record) : List Record → Except PyError Nat
  | [] => .ok 0
  | row :: rest =>
      match (df2.filter (fun r => r.commentId == row.commentId)).head? with
      | none => .error .indexError
      | some m =>
          match countDiffRows df2 rest with
          | .error e => .error e
          | .ok n => .ok ((if symmDiffNonempty row.topics m.topics then 1 else 0) + n)

/-- Model of `evals_lib.get_pairwise_categorization_diffs`: the rate of rows of `df1`
whose topic set differs from that of the first `comment-id`-matching row of
`df2`.  The division `count_diffs / df1.shape[0]` raises `ZeroDivisionError`
on an empty `df1` (the loop body never runs in that case). -/
def getPairwiseCategorizationDiffs (df1 df2 : List Record) : Except PyError ℚ :=
  match countDiffRows df2 df1 with
  | .error e => .error e
  | .ok c =>
      if df1.length = 0 then .error .zeroDivisionError
      else .ok ((c : ℚ) / (df1.length : ℚ))

/-- Model of `np.mean` over a list of rationals: `none` models the NaN produced by
`np.mean([])`. -/
def npMean (l : List ℚ) : Option ℚ :=
  if l.isEmpty then none else some (l.sum / (l.length : ℚ))

/-- Model of `np.mean` over a list of floats some of which may be NaN (`none`):
any NaN in the input propagates into the result, and the empty mean is NaN. -/
def npMeanNaN (l : List (Option ℚ)) : Option ℚ :=
  if l.isEmpty then none
  else if l.any (·.isNone) then none
  else some ((l.map (·.getD 0)).sum / (l.length : ℚ))

/-- Model of `evals_lib.get_topic_comments`: the rows whose `topics` list contains
the topic name. -/
def getTopicComments (comments : List Record) (topicName : String) : List Record :=
  comments.filter (fun r => topicName ∈ r.topics)

/-- Model of `comments[TOPICS_COL].explode().unique()`: all topic names occurring in
the dataset, first occurrence first. -/
def datasetTopics (comments : List Record) : List String :=
  uniqueFirst (comments.flatMap (·.topics))

/-- Python `min` over a non-empty list of `(float, str)` tuples: lexicographic
order, distance first, and the first occurrence wins among full ties. -/
def minDistTopic : List (ℚ × String) → Option (ℚ × String)
  | [] => none
  | p :: rest =>
      some (rest.foldl
        (fun best q => if q.1 < best.1 ∨ (q.1 = best.1 ∧ q.2 < best.2) then q else best) p)

/-- Model of `evals_lib.topic_centered_comment_separation`
(`library/evals/clustering_evals/evals_lib.py`, the current version): builds
`(distance, topic)` tuples over the topics not assigned to the comment and
takes `min`; `(nan, None)` when the comment is assigned every topic.
The cosine-distance function `d` (topic name, comment text ↦ distance) is the
external embedding oracle. -/
def topicCenteredCommentSeparation (d : String → String → ℚ) (comment : Record)
    (topics : List String) : Option ℚ × Option String :=
  let distances := (topics.filter (fun t => t ∉ comment.topics)).map
    (fun t => (d t comment.commentText, t))
  match minDistTopic distances with
  | none => (none, none)
  | some (dist, t) => (some dist, some t)

/-- Python `min` over a non-empty list of `(str, float)` tuples: lexicographic
order, topic NAME first. -/
def minTopicDist : List (String × ℚ) → Option (String × ℚ)
  | [] => none
  | p :: rest =>
      some (rest.foldl
        (fun best q => if q.1 < best.1 ∨ (q.1 = best.1 ∧ q.2 < best.2) then q else best) p)

/-- Model of `evals_lib.topic_centered_comment_separation` as in the legacy copy
`evals/clustering_evals/evals_lib.py`: it builds `(t, distance)` tuples —
topic name first — so `min` compares by topic name, not by distance. -/
def topicCenteredCommentSeparationLegacy (d : String → String → ℚ) (comment : Record)
    (topics : List String) : Option (String × ℚ) :=
  let distances := (topics.filter (fun t => t ∉ comment.topics)).map
    (fun t => (t, d t comment.commentText))
  minTopicDist distances

/-- Model of `evals_lib.topic_centered_separation`: `np.mean` of the separation scores
of all comments assigned the topic (NaN separations included in the list). -/
def topicCenteredSeparation (d : String → String → ℚ) (comments : List Record)
    (topicName : String) : Option ℚ :=
  let topics := datasetTopics comments
  let separations := (getTopicComments comments topicName).map
    (fun r => (topicCenteredCommentSeparation d r topics).1)
  npMeanNaN separations

/-- Modelled from the spec's words, for comparison with
`topicCenteredSeparation`: the NaN separations "excluded from downstream
averaging", i.e. the mean over only the non-NaN separation scores. -/
def topicCenteredSeparationNanExcluded (d : String → String → ℚ)
    (comments : List Record) (topicName : String) : Option ℚ :=
  let topics := datasetTopics comments
  let separations := (getTopicComments comments topicName).map
    (fun r => (topicCenteredCommentSeparation d r topics).1)
  npMean (separations.filterMap id)

/-- Python `max(pairs, key=lambda x: x[1])` over `(topic, similarity)` pairs:
the first pair with maximal similarity (replace only on strictly greater). -/
def maxBySimilarity : List (String × ℚ) → Option (String × ℚ)
  | [] => none
  | p :: rest => some (rest.foldl (fun best q => if q.2 > best.2 then q else best) p)

/-- The inner helper `get_similarities_for_first_topic_set` of
`evals_lib.get_topic_set_similarity`: for each topic of the first set, the
similarity of its best match in the second set.  `none` models the
`ValueError` of `max([])` on an empty second set. -/
def similaritiesForFirstTopicSet (sim : String → String → ℚ) (set2 : List String) :
    List String → Option (List ℚ)
  | [] => some []
  | t :: ts =>
      match maxBySimilarity (set2.map (fun o => (o, sim t o))),
            similaritiesForFirstTopicSet sim set2 ts with
      | some p, some rest => some (p.2 :: rest)
      | _, _ => none

/-- Model of `evals_lib.get_topic_set_similarity`: the mean of the two directional
best-match similarity means.  `sim` is the external cosine-similarity oracle;
`none` covers both the `max([])` error and the NaN of an empty mean. -/
def getTopicSetSimilarity (sim : String → String → ℚ)
    (set1 set2 : List String) : Option ℚ :=
  match similaritiesForFirstTopicSet sim set2 set1,
        similaritiesForFirstTopicSet sim set1 set2 with
  | some l1, some l2 =>
      match npMean l1, npMean l2 with
      | some m1, some m2 => some ((m1 + m2) / 2)
      | _, _ => none
  | _, _ => none

/-- Pointwise sum of equal-length embedding vectors (`np.stack` + summation
along axis 0). -/
def vecSum : List (List ℚ) → List ℚ
  | [] => []
  | [v] => v
  | v :: rest => (vecSum rest).zipWith (· + ·) v

/-- Model of `np.mean(np.stack vecs, axis=0)`: the pointwise mean; `none` models the
`ValueError` `np.stack` raises on an empty list. -/
def vecMean (vecs : List (List ℚ)) : Option (List ℚ) :=
  if vecs.isEmpty then none
  else some ((vecSum vecs).map (· / (vecs.length : ℚ)))

/-- The state of a `CentroidSilhouette` instance: the private fields
`__comments`, `__topics` and the centroid cache `__topic_centroids`
(a dict, modelled as an association list). -/
structure CentroidSilhouette where
  comments : List Record
  topics : List String
  cache : List (String × List ℚ)
  deriving Repr

/-- Model of `CentroidSilhouette.__init__`: bind the dataset, list its topics, and
start with an empty centroid cache. -/
def CentroidSilhouette.init (comments : List Record) : CentroidSilhouette :=
  ⟨comments, datasetTopics comments, []⟩

/-- Model of `CentroidSilhouette.get_topic_centroid`: return the cached centroid when
`topic_name` is a key of `__topic_centroids`; otherwise compute the mean
embedding of the comments assigned the topic.  The method is modelled as a
state transformer to expose its effect (or lack thereof) on the cache; `emb`
is the external embedding oracle. -/
def CentroidSilhouette.getTopicCentroid (emb : String → List ℚ)
    (s : CentroidSilhouette) (topicName : String) :
    Option (List ℚ) × CentroidSilhouette :=
  match s.cache.lookup topicName with
  | some v => (some v, s)
  | none =>
      let commentTexts := (getTopicComments s.comments topicName).map (·.commentText)
      (vecMean (commentTexts.map emb), s)

/-- Model of `CentroidSilhouette.comment_separation`: the loop over `__topics`
collecting `(distance-to-centroid, topic)` for every topic not assigned to
the comment, then `min`; `(nan, None)` when the comment is assigned every
topic.  `dvec` is the cosine distance between a centroid vector and a comment
text (external oracle); a missing centroid (`np.stack` error) propagates as a
distance of `none` and poisons the whole call. -/
def CentroidSilhouette.commentSeparation (emb : String → List ℚ)
    (dvec : List ℚ → String → ℚ) (s : CentroidSilhouette) (comment : Record) :
    (Option ℚ × Option String) × CentroidSilhouette :=
  let step := fun (acc : Option (List (ℚ × String)) × CentroidSilhouette) (topic : String) =>
    if topic ∈ comment.topics then acc
    else
      let (c, s') := acc.2.getTopicCentroid emb topic
      match acc.1, c with
      | some ds, some centroid =>
          (some (ds ++ [(dvec centroid comment.commentText, topic)]), s')
      | _, _ => (none, s')
  match s.topics.foldl step (some [], s) with
  | (none, s') => ((none, none), s')
  | (some distances, s') =>
      match minDistTopic distances with
      | none => ((none, none), s')
      | some (dist, t) => ((some dist, some t), s')

/-- Model of `CentroidSilhouette.topic_separation`: `np.mean` of the
`comment_separation` scores of all comments assigned the topic (NaN scores
included in the list), threading the instance state through the loop. -/
def CentroidSilhouette.topicSeparation (emb : String → List ℚ)
    (dvec : List ℚ → String → ℚ) (s : CentroidSilhouette) (topicName : String) :
    Option ℚ × CentroidSilhouette :=
  let step := fun (acc : List (Option ℚ) × CentroidSilhouette) (r : Record) =>
    let (sep, s') := acc.2.commentSeparation emb dvec r
    (acc.1 ++ [sep.1], s')
  let (seps, s') := (getTopicComments s.comments topicName).foldl step ([], s)
  (npMeanNaN seps, s')

/-- The `topics` column of a DataFrame: either still the raw
semicolon-separated strings, or already parsed into lists of names. -/
inductive TopicsCol where
  | raw (vals : List String)
  | parsed (vals : List (List String))
  deriving DecidableEq, Repr

/-- A comments DataFrame as an object: its three columns.  `topicsCol` is
mutable in place; the other columns are never written by the code under
study. -/
structure DataFrameObj where
  topicsCol : TopicsCol
  commentIds : List Int
  commentTexts : List String
  deriving DecidableEq, Repr

/-- The column update of `convert_topics_col_to_list` applied to a DataFrame
value: split each raw topics string and deduplicate the names.  `none` when
the column is not raw strings (pandas `.str.split` degrades on non-string
columns; the code is only ever called on raw columns). -/
def convertTopicsDF (df : DataFrameObj) : Option DataFrameObj :=
  match df.topicsCol with
  | .raw vals => some ⟨.parsed (vals.map convertTopicsEntry), df.commentIds, df.commentTexts⟩
  | .parsed _ => none

/-- A heap of DataFrame objects, addressed by position: Python variables hold
references into it. -/
abbrev DFHeap := List DataFrameObj

/-- Model of `evals_lib.convert_topics_col_to_list` with its aliasing made explicit:
it receives a reference `p` to a DataFrame, overwrites that object's topics
column in place (`comments[TOPICS_COL] = ...`), and returns the very same
reference (`return comments`). -/
def convertTopicsColToList (h : DFHeap) (p : Nat) : Option (DFHeap × Nat) :=
  match (List.get? h p).bind convertTopicsDF with
  | none => none
  | some df' => some (List.set h p df', p)

/-! ### Helper lemmas -/

theorem uniqueFirst_foldl_mem (l acc : List String) (x : String) :
    x ∈ l.foldl (fun acc x => if x ∈ acc then acc else acc ++ [x]) acc ↔
      x ∈ acc ∨ x ∈ l := by
  induction l generalizing acc with
  | nil => simp
  | cons a l ih =>
      simp only [List.foldl_cons, ih, List.mem_cons]
      by_cases h : a ∈ acc
      · simp only [if_pos h]
        constructor
        · rintro (hx | hx)
          · exact Or.inl hx
          · exact Or.inr (Or.inr hx)
        · rintro (hx | rfl | hx)
          · exact Or.inl hx
          · exact Or.inl h
          · exact Or.inr hx
      · simp only [if_neg h, List.mem_append, List.mem_singleton]
        tauto

theorem mem_uniqueFirst (l : List String) (x : String) :
    x ∈ uniqueFirst l ↔ x ∈ l := by
  simp [uniqueFirst, uniqueFirst_foldl_mem]

theorem uniqueFirst_foldl_nodup (l acc : List String) (h : acc.Nodup) :
    (l.foldl (fun acc x => if x ∈ acc then acc else acc ++ [x]) acc).Nodup := by
  induction l generalizing acc with
  | nil => exact h
  | cons a l ih =>
      simp only [List.foldl_cons]
      by_cases ha : a ∈ acc
      · rw [if_pos ha]; exact ih acc h
      · rw [if_neg ha]
        refine ih _ ?_
        simp [List.nodup_append, h, ha]

theorem nodup_uniqueFirst (l : List String) : (uniqueFirst l).Nodup :=
  uniqueFirst_foldl_nodup l [] List.nodup_nil

theorem pySplitChar_ne_nil (sep : Char) (l : List Char) : pySplitChar sep l ≠ [] := by
  induction l with
  | nil => simp [pySplitChar]
  | cons c rest ih =>
      rw [pySplitChar]
      by_cases h : c = sep
      · simp [h]
      · rw [if_neg h]
        cases hs : pySplitChar sep rest with
        | nil => exact absurd hs ih
        | cons seg segs => simp

/-! ### C10: empty first dataframe -/

/-- C10: for an empty first dataframe, `get_pairwise_categorization_diffs`
divides the zero diff count by zero and fails with `ZeroDivisionError`
(for every second dataframe); it never returns a rate. -/
theorem emptyDF_pairwise_diffs_zero_division (df2 : List SensemakingEvals.Record) :
    getPairwiseCategorizationDiffs [] df2 = .error .zeroDivisionError := by
  simp [getPairwiseCategorizationDiffs, countDiffRows]

/-! ### C2: the centroid cache is never written -/

/-- The method `get_topic_centroid` returns the instance state unchanged, whichever
branch it takes. -/
theorem getTopicCentroid_state_eq (emb : String → List ℚ)
    (s : CentroidSilhouette) (topicName : String) :
    (s.getTopicCentroid emb topicName).2 = s := by
  rw [CentroidSilhouette.getTopicCentroid]
  cases h : s.cache.lookup topicName <;> simp

/-- C2 (refuting the cached-centroid claim): `get_topic_centroid` never
modifies the instance state — in particular it never stores the computed
centroid in `__topic_centroids`, so the cache stays empty and every call
recomputes the centroid.  The code checks the cache but the write to it is
missing. -/
theorem getTopicCentroid_never_writes_cache (emb : String → List ℚ)
    (s : CentroidSilhouette) (topicName : String) :
    (s.getTopicCentroid emb topicName).2 = s :=
  getTopicCentroid_state_eq emb s topicName

/-! ### C1: minimum-distance separation, current vs legacy tuple order -/

/-- C1 evaluated at the three-topic scenario (comment assigned `topic1` only;
distances `topic1 ↦ 0.1`, `topic2 ↦ 0.7`, `topic3 ↦ 0.5`): the current
`library/evals` version builds `(distance, topic)` tuples and returns the
minimum-distance pair `(0.5, "topic3")` as the claim states, while the legacy
`evals/` copy builds `(topic, distance)` tuples, so `min` compares topic
names first and returns `("topic2", 0.7)` — contradicting its own docstring
("the separation distance, together with the closest topic name"). -/
theorem commentSeparation_three_topic_scenario :
    topicCenteredCommentSeparation
        (fun t _ => if t = "topic1" then 1/10 else if t = "topic2" then 7/10 else 1/2)
        ⟨1, "comment1", ["topic1"]⟩ ["topic1", "topic2", "topic3"]
      = (some (1/2), some "topic3") ∧
    topicCenteredCommentSeparationLegacy
        (fun t _ => if t = "topic1" then 1/10 else if t = "topic2" then 7/10 else 1/2)
        ⟨1, "comment1", ["topic1"]⟩ ["topic1", "topic2", "topic3"]
      = some ("topic2", 7/10) := by
  constructor
  · norm_num +decide [topicCenteredCommentSeparation, minDistTopic, List.filter]
  · norm_num +decide [topicCenteredCommentSeparationLegacy, minTopicDist, List.filter]

/-! ### C4 and C8: topic parsing -/

theorem string_mk_data (s : String) : (⟨s.data⟩ : String) = s := by
  cases s
  rfl

theorem pySplitChar_of_no_sep (sep : Char) (l : List Char)
    (h : ∀ c ∈ l, c ≠ sep) : pySplitChar sep l = [l] := by
  induction l with
  | nil => rfl
  | cons c rest ih =>
      rw [pySplitChar, if_neg (h c (List.mem_cons_self c rest)),
        ih (fun x hx => h x (List.mem_cons_of_mem c hx))]

theorem beforeFirstColon_ne_empty (seg : String) (h1 : seg.data ≠ [])
    (h2 : seg.data.head? ≠ some ':') : beforeFirstColon seg ≠ "" := by
  obtain ⟨c, cs, hdata⟩ := List.exists_cons_of_ne_nil h1
  have hc : c ≠ ':' := by
    intro h
    exact h2 (by rw [hdata, h]; rfl)
  rw [beforeFirstColon, pySplitStr, hdata, pySplitChar, if_neg hc]
  cases hs : pySplitChar ':' cs with
  | nil => exact absurd hs (pySplitChar_ne_nil ':' cs)
  | cons seg0 segs =>
      intro hEq
      have := congrArg String.data hEq
      simp only [List.map_cons, List.headD_cons] at this
      exact List.cons_ne_nil c seg0 this

/-- C4 counterexample: the raw topics string `":a"` parses to the single
topic name `""` — `convert_topics_col_to_list` can produce an empty topic
name, refuting the invariant as stated. -/
theorem convertTopicsEntry_empty_name_counterexample :
    convertTopicsEntry ":a" = [""] := by decide

/-- C4 amended: topic names are non-empty provided every semicolon-separated
segment of the raw topics string is non-empty and does not start with a
colon; in general (e.g. for segments `""` or `":a"`), parsed names can be the
empty string. -/
theorem convertTopicsEntry_nonempty_names (s : String)
    (h : ∀ seg ∈ pySplitStr ';' s, seg.data ≠ [] ∧ seg.data.head? ≠ some ':') :
    ∀ t ∈ convertTopicsEntry s, t ≠ "" := by
  intro t ht
  rw [convertTopicsEntry, mem_uniqueFirst, List.mem_map] at ht
  obtain ⟨seg, hseg, rfl⟩ := ht
  exact beforeFirstColon_ne_empty seg (h seg hseg).1 (h seg hseg).2

/-- Witness for the amended C4 at the concrete input `"a:b;c"` and the
parsed name `"a"`. -/
theorem convertTopicsEntry_nonempty_names_witness :
    "a" ∈ convertTopicsEntry "a:b;c" ∧ "a" ≠ "" :=
  ⟨by decide, convertTopicsEntry_nonempty_names "a:b;c" (by decide) "a" (by decide)⟩

/-- C8: `convert_topics_col_to_list` splits each raw topics value on `";"`,
maps each segment to the text before its first `":"` (a segment with no
colon passes through whole), and deduplicates:
`"topic1:subtopic1;topic2:subtopic2"` yields `{"topic1", "topic2"}`,
`"topic1:a;topic1:b"` yields `{"topic1"}`, the output never repeats a name,
a separator-free string passes through whole, and membership in the output
is exactly having the form `segment-before-first-colon`. -/
theorem convertTopicsEntry_spec :
    convertTopicsEntry "topic1:subtopic1;topic2:subtopic2" = ["topic1", "topic2"] ∧
    convertTopicsEntry "topic1:a;topic1:b" = ["topic1"] ∧
    (∀ s : String, (convertTopicsEntry s).Nodup) ∧
    (∀ s : String, (∀ c ∈ s.data, c ≠ ';' ∧ c ≠ ':') → convertTopicsEntry s = [s]) ∧
    (∀ s t : String,
      t ∈ convertTopicsEntry s ↔ ∃ seg ∈ pySplitStr ';' s, beforeFirstColon seg = t) := by
  refine ⟨by decide, by decide, fun s => nodup_uniqueFirst _, fun s h => ?_, fun s t => ?_⟩
  · have hsplit : pySplitStr ';' s = [s] := by
      rw [pySplitStr, pySplitChar_of_no_sep ';' s.data (fun c hc => (h c hc).1),
        List.map_singleton, string_mk_data]
    have hcolon : beforeFirstColon s = s := by
      rw [beforeFirstColon, pySplitStr, pySplitChar_of_no_sep ':' s.data
        (fun c hc => (h c hc).2), List.map_singleton, List.headD_cons, string_mk_data]
    rw [convertTopicsEntry, hsplit, List.map_singleton, hcolon]
    rfl
  · rw [convertTopicsEntry, mem_uniqueFirst, List.mem_map]

/-- Witness for C8's conditional conjunct at the concrete input `"plain"`. -/
theorem convertTopicsEntry_spec_witness :
    convertTopicsEntry "plain" = ["plain"] :=
  convertTopicsEntry_spec.2.2.2.1 "plain" (by decide)

/-! ### C5 and C7: pairwise categorization diffs -/

theorem symmDiffNonempty_self (a : List String) : symmDiffNonempty a a = false := by
  simp [symmDiffNonempty]

theorem filter_id_head_self (df : List Record)
    (huniq : df.Pairwise (fun a b => a.commentId ≠ b.commentId)) (row : Record)
    (hrow : row ∈ df) :
    (df.filter (fun r => r.commentId == row.commentId)).head? = some row := by
  induction df with
  | nil => exact absurd hrow (List.not_mem_nil row)
  | cons a rest ih =>
      rcases List.pairwise_cons.mp huniq with ⟨ha, hrest⟩
      rcases List.mem_cons.mp hrow with rfl | hmem
      · rw [List.filter_cons_of_pos (by simp), List.head?_cons]
      · rw [List.filter_cons_of_neg (by simp [ha row hmem]), ih hrest hmem]

theorem countDiffRows_self (df : List Record)
    (huniq : df.Pairwise (fun a b => a.commentId ≠ b.commentId)) :
    ∀ l : List Record, (∀ r ∈ l, r ∈ df) → countDiffRows df l = .ok 0 := by
  intro l
  induction l with
  | nil => intro _; rfl
  | cons row rest ih =>
      intro hsub
      rw [countDiffRows, filter_id_head_self df huniq row (hsub row (List.mem_cons_self row rest)),
        ih (fun r hr => hsub r (List.mem_cons_of_mem row hr))]
      simp [symmDiffNonempty_self]

/-- C5: comparing a non-empty dataset with unique comment-ids against itself
yields a categorization diff rate of `0.0`: each row's first id-match is the
row itself, every symmetric difference is empty, and `0 / len` is `0`. -/
theorem selfPairwiseDiffsZero (df : List Record) (hne : df ≠ [])
    (huniq : df.Pairwise (fun a b => a.commentId ≠ b.commentId)) :
    getPairwiseCategorizationDiffs df df = .ok 0 := by
  rw [getPairwiseCategorizationDiffs, countDiffRows_self df huniq df (fun r hr => hr)]
  simp [List.length_eq_zero, hne]

/-- Witness for C5 at a concrete two-row dataset. -/
theorem selfPairwiseDiffsZero_witness :
    getPairwiseCategorizationDiffs
        [⟨1, "a", ["t1"]⟩, ⟨2, "b", ["t2"]⟩] [⟨1, "a", ["t1"]⟩, ⟨2, "b", ["t2"]⟩]
      = .ok 0 :=
  selfPairwiseDiffsZero [⟨1, "a", ["t1"]⟩, ⟨2, "b", ["t2"]⟩] (by decide) (by decide)

theorem countDiffRows_missing_id (df2 : List Record) (row : Record)
    (h2 : ∀ r ∈ df2, r.commentId ≠ row.commentId) :
    ∀ df1 : List Record, row ∈ df1 → countDiffRows df2 df1 = .error .indexError := by
  intro df1
  induction df1 with
  | nil => intro h; exact absurd h (List.not_mem_nil row)
  | cons a rest ih =>
      intro hrow
      rcases List.mem_cons.mp hrow with rfl | hmem
      · rw [countDiffRows, List.filter_eq_nil_iff.mpr (by simpa using h2)]
        rfl
      · rw [countDiffRows]
        cases hh : (df2.filter (fun r => r.commentId == a.commentId)).head? with
        | none => rfl
        | some m => rw [ih hmem]

/-- C7: when some row of the first dataframe has a comment-id with no match
in the second dataframe, `get_pairwise_categorization_diffs` fails with a
lookup error (`IndexError` from `.iloc[0]` on an empty selection); it never
returns a rate. -/
theorem missingIdIndexError (df1 df2 : List Record) (row : Record)
    (h1 : row ∈ df1) (h2 : ∀ r ∈ df2, r.commentId ≠ row.commentId) :
    getPairwiseCategorizationDiffs df1 df2 = .error .indexError := by
  rw [getPairwiseCategorizationDiffs, countDiffRows_missing_id df2 row h2 df1 h1]

/-- Witness for C7: one row with id `1`, compared against a dataframe whose
only row has id `2`. -/
theorem missingIdIndexError_witness :
    getPairwiseCategorizationDiffs [⟨1, "a", ["t1"]⟩] [⟨2, "b", ["t2"]⟩]
      = .error .indexError :=
  missingIdIndexError [⟨1, "a", ["t1"]⟩] [⟨2, "b", ["t2"]⟩] ⟨1, "a", ["t1"]⟩
    (by decide) (by decide)

/-! ### C6: topic-set self-similarity -/

theorem foldl_max_mem_le (rest : List (String × ℚ)) (p : String × ℚ) :
    (rest.foldl (fun best q => if q.2 > best.2 then q else best) p) ∈ p :: rest ∧
      ∀ r ∈ p :: rest,
        r.2 ≤ (rest.foldl (fun best q => if q.2 > best.2 then q else best) p).2 := by
  induction rest generalizing p with
  | nil => simp
  | cons q rest ih =>
      simp only [List.foldl_cons]
      obtain ⟨hmem, hle⟩ := ih (if q.2 > p.2 then q else p)
      have hcases : (if q.2 > p.2 then q else p) = p ∨ (if q.2 > p.2 then q else p) = q := by
        split
        · exact Or.inr rfl
        · exact Or.inl rfl
      have hp : p.2 ≤ (if q.2 > p.2 then q else p).2 := by
        split
        · exact le_of_lt (by assumption)
        · exact le_refl _
      have hq : q.2 ≤ (if q.2 > p.2 then q else p).2 := by
        split
        · exact le_refl _
        · exact le_of_not_lt (by assumption)
      constructor
      · rcases List.mem_cons.mp hmem with h | h
        · rcases hcases with hc | hc <;> rw [h, hc] <;> simp
        · simp [h]
      · intro r hr
        rcases List.mem_cons.mp hr with rfl | hr'
        · exact le_trans hp (hle _ (List.mem_cons_self _ _))
        · rcases List.mem_cons.mp hr' with rfl | hr''
          · exact le_trans hq (hle _ (List.mem_cons_self _ _))
          · exact hle r (List.mem_cons_of_mem _ hr'')

theorem maxBySimilarity_spec (l : List (String × ℚ)) (p : String × ℚ)
    (h : maxBySimilarity l = some p) : p ∈ l ∧ ∀ q ∈ l, q.2 ≤ p.2 := by
  cases l with
  | nil => exact absurd h (by simp [maxBySimilarity])
  | cons a rest =>
      rw [maxBySimilarity, Option.some.injEq] at h
      obtain ⟨hmem, hle⟩ := foldl_max_mem_le rest a
      rw [h] at hmem hle
      exact ⟨hmem, hle⟩

theorem maxBySimilarity_eq_none (l : List (String × ℚ)) :
    maxBySimilarity l = none ↔ l = [] := by
  cases l <;> simp [maxBySimilarity]

theorem similaritiesForFirstTopicSet_self (sim : String → String → ℚ)
    (s : List String) (h1 : ∀ x ∈ s, sim x x = 1)
    (h2 : ∀ x ∈ s, ∀ y ∈ s, sim x y ≤ 1) :
    ∀ l1 : List String, l1 ≠ [] → (∀ x ∈ l1, x ∈ s) →
      similaritiesForFirstTopicSet sim s l1 = some (List.replicate l1.length 1) := by
  intro l1
  induction l1 with
  | nil => intro h _; exact absurd rfl h
  | cons t ts ih =>
      intro _ hsub
      have hts : t ∈ s := hsub t (List.mem_cons_self t ts)
      rw [similaritiesForFirstTopicSet]
      cases hmax : maxBySimilarity (s.map (fun o => (o, sim t o))) with
      | none =>
          rw [maxBySimilarity_eq_none, List.map_eq_nil_iff] at hmax
          exact absurd (hmax ▸ hts) (List.not_mem_nil t)
      | some p =>
          obtain ⟨hmem, hle⟩ := maxBySimilarity_spec _ p hmax
          obtain ⟨o, ho, rfl⟩ := List.mem_map.mp hmem
          have hub : sim t o ≤ 1 := h2 t hts o ho
          have hlb : (1 : ℚ) ≤ sim t o := by
            have := hle (t, sim t t) (List.mem_map.mpr ⟨t, hts, rfl⟩)
            rwa [h1 t hts] at this
          have hone : sim t o = 1 := le_antisymm hub hlb
          cases ts with
          | nil => simp [similaritiesForFirstTopicSet, hone, List.replicate]
          | cons t' ts' =>
              rw [ih (by simp) (fun x hx => hsub x (List.mem_cons_of_mem t hx))]
              simp [hone, List.replicate_succ]

theorem npMean_replicate_one (n : ℕ) (h : n ≠ 0) :
    npMean (List.replicate n (1 : ℚ)) = some 1 := by
  rw [npMean, if_neg (by simp [List.isEmpty_iff, h])]
  simp [List.sum_replicate, div_self (show (n : ℚ) ≠ 0 by exact_mod_cast h)]

/-- C6: for a non-empty topic set compared with itself, when the similarity
oracle satisfies `sim x x = 1` on the set and never exceeds `1` on it, each
topic's best match is worth exactly `1`, both directional means are `1`, and
`get_topic_set_similarity` returns `1.0`. -/
theorem topicSetSelfSimilarityOne (sim : String → String → ℚ) (s : List String)
    (hne : s ≠ []) (h1 : ∀ x ∈ s, sim x x = 1)
    (h2 : ∀ x ∈ s, ∀ y ∈ s, sim x y ≤ 1) :
    getTopicSetSimilarity sim s s = some 1 := by
  rw [getTopicSetSimilarity,
    similaritiesForFirstTopicSet_self sim s h1 h2 s hne (fun x hx => hx)]
  simp only [npMean_replicate_one s.length (by simpa [List.length_eq_zero] using hne)]
  norm_num

/-- Witness for C6 at the singleton topic set `{"topicA"}` with the constant
similarity oracle `1`. -/
theorem topicSetSelfSimilarityOne_witness :
    getTopicSetSimilarity (fun _ _ => 1) ["topicA"] ["topicA"] = some 1 :=
  topicSetSelfSimilarityOne (fun _ _ => 1) ["topicA"] (by decide)
    (fun x _ => rfl) (fun x _ y _ => le_refl 1)

/-! ### C3: NaN separations and their (non-)exclusion from averaging -/

theorem npMeanNaN_of_none (l : List (Option ℚ)) (h : none ∈ l) :
    npMeanNaN l = none := by
  rw [npMeanNaN, if_neg (by simp [List.isEmpty_iff, List.ne_nil_of_mem h]),
    if_pos (List.any_eq_true.mpr ⟨none, h, rfl⟩)]

/-- A comment assigned every candidate topic has no separation candidate:
the current `topic_centered_comment_separation` returns `(nan, None)`. -/
theorem commentSeparation_all_assigned (d : String → String → ℚ) (r : Record)
    (topics : List String) (h : ∀ t ∈ topics, t ∈ r.topics) :
    topicCenteredCommentSeparation d r topics = (none, none) := by
  rw [topicCenteredCommentSeparation,
    List.filter_eq_nil_iff.mpr (fun t ht => by simpa using h t ht)]
  rfl

/-- The NaN separation of an all-topics comment propagates through `np.mean`:
`topic_centered_separation` returns NaN for any topic one of whose assigned
comments is assigned every topic of the dataset. -/
theorem topicCenteredSeparation_nan (d : String → String → ℚ)
    (comments : List Record) (topicName : String) (r : Record)
    (hr : r ∈ comments) (htn : topicName ∈ r.topics)
    (hall : ∀ t ∈ datasetTopics comments, t ∈ r.topics) :
    topicCenteredSeparation d comments topicName = none := by
  rw [topicCenteredSeparation]
  refine npMeanNaN_of_none _ (List.mem_map.mpr ⟨r, ?_, ?_⟩)
  · exact List.mem_filter.mpr ⟨hr, by simpa using htn⟩
  · rw [commentSeparation_all_assigned d r _ hall]

theorem commentSeparation_foldl_skip (emb : String → List ℚ)
    (dvec : List ℚ → String → ℚ) (r : Record) (l : List String)
    (h : ∀ t ∈ l, t ∈ r.topics) :
    ∀ acc : Option (List (ℚ × String)) × CentroidSilhouette,
      l.foldl
        (fun acc topic =>
          if topic ∈ r.topics then acc
          else
            let (c, s') := acc.2.getTopicCentroid emb topic
            match acc.1, c with
            | some ds, some centroid =>
                (some (ds ++ [(dvec centroid r.commentText, topic)]), s')
            | _, _ => (none, s'))
        acc = acc := by
  induction l with
  | nil => intro acc; rfl
  | cons t ts ih =>
      intro acc
      rw [List.foldl_cons, if_pos (h t (List.mem_cons_self t ts))]
      exact ih (fun x hx => h x (List.mem_cons_of_mem t hx)) acc

/-- Evaluating `CentroidSilhouette.comment_separation` on a comment assigned every topic
of the instance: every loop iteration is skipped and the result is
`(nan, None)` with the state untouched. -/
theorem centroidCommentSeparation_all_assigned (emb : String → List ℚ)
    (dvec : List ℚ → String → ℚ) (s : CentroidSilhouette) (r : Record)
    (h : ∀ t ∈ s.topics, t ∈ r.topics) :
    s.commentSeparation emb dvec r = ((none, none), s) := by
  rw [CentroidSilhouette.commentSeparation,
    commentSeparation_foldl_skip emb dvec r s.topics h (some [], s)]
  rfl

theorem centroidCommentSeparation_state (emb : String → List ℚ)
    (dvec : List ℚ → String → ℚ) (s : CentroidSilhouette) (r : Record) :
    (s.commentSeparation emb dvec r).2 = s := by
  rw [CentroidSilhouette.commentSeparation]
  have haux : ∀ (l : List String) (acc : Option (List (ℚ × String)) × CentroidSilhouette),
      (l.foldl
        (fun acc topic =>
          if topic ∈ r.topics then acc
          else
            let (c, s') := acc.2.getTopicCentroid emb topic
            match acc.1, c with
            | some ds, some centroid =>
                (some (ds ++ [(dvec centroid r.commentText, topic)]), s')
            | _, _ => (none, s'))
        acc).2 = acc.2 := by
    intro l
    induction l with
    | nil => intro acc; rfl
    | cons t ts ih =>
        intro acc
        rw [List.foldl_cons]
        by_cases ht : t ∈ r.topics
        · rw [if_pos ht]; exact ih acc
        · rw [if_neg ht]
          have hstep :
              (let (c, s') := acc.2.getTopicCentroid emb t
               match acc.1, c with
               | some ds, some centroid =>
                   (some (ds ++ [(dvec centroid r.commentText, t)]), s')
               | _, _ => ((none : Option (List (ℚ × String))), s')).2 = acc.2 := by
            have hs := getTopicCentroid_state_eq emb acc.2 t
            cases hc : (acc.2.getTopicCentroid emb t).1 with
            | none =>
                cases ha : acc.1 <;>
                  simp_all [Prod.ext_iff]
            | some centroid =>
                cases ha : acc.1 <;>
                  simp_all [Prod.ext_iff]
          rw [ih, hstep]
  cases hf : s.topics.foldl _ (some [], s) with
  | mk fst snd =>
      have : snd = s := by
        have := haux s.topics (some [], s)
        rw [hf] at this
        exact this
      subst this
      cases fst with
      | none => rfl
      | some distances => cases hm : minDistTopic distances with
        | none => simp [hm]
        | some p => cases p with
          | mk dist t => simp [hm]

theorem centroidTopicSeparation_seps (emb : String → List ℚ)
    (dvec : List ℚ → String → ℚ) (s : CentroidSilhouette) (topicName : String) :
    s.topicSeparation emb dvec topicName =
      (npMeanNaN ((getTopicComments s.comments topicName).map
        (fun r => (s.commentSeparation emb dvec r).1.1)), s) := by
  rw [CentroidSilhouette.topicSeparation]
  have haux : ∀ (l : List Record) (acc : List (Option ℚ) × CentroidSilhouette),
      acc.2 = s →
      l.foldl
        (fun acc r =>
          let (sep, s') := acc.2.commentSeparation emb dvec r
          (acc.1 ++ [sep.1], s'))
        acc = (acc.1 ++ l.map (fun r => (s.commentSeparation emb dvec r).1.1), s) := by
    intro l
    induction l with
    | nil => intro acc hacc; simp [Prod.ext_iff, hacc]
    | cons r rs ih =>
        intro acc hacc
        rw [List.foldl_cons]
        have hstep :
            (let (sep, s') := acc.2.commentSeparation emb dvec r
             (acc.1 ++ [sep.1], s')) =
              (acc.1 ++ [(s.commentSeparation emb dvec r).1.1], s) := by
          have hst := centroidCommentSeparation_state emb dvec acc.2 r
          rw [hacc] at hst ⊢
          cases hsep : s.commentSeparation emb dvec r with
          | mk sep s' =>
              rw [hsep] at hst
              simp_all
        rw [hstep, ih (acc.1 ++ [(s.commentSeparation emb dvec r).1.1], s) rfl]
        simp
  rw [haux (getTopicComments s.comments topicName) ([], s) rfl]
  simp

/-- Likewise `CentroidSilhouette.topic_separation` returns NaN for a topic
one of whose assigned comments is assigned every topic of the instance. -/
theorem centroidTopicSeparation_nan (emb : String → List ℚ)
    (dvec : List ℚ → String → ℚ) (s : CentroidSilhouette) (topicName : String)
    (r : Record) (hr : r ∈ getTopicComments s.comments topicName)
    (hall : ∀ t ∈ s.topics, t ∈ r.topics) :
    (s.topicSeparation emb dvec topicName).1 = none := by
  rw [centroidTopicSeparation_seps]
  refine npMeanNaN_of_none _ (List.mem_map.mpr ⟨r, hr, ?_⟩)
  rw [centroidCommentSeparation_all_assigned emb dvec s r hall]

/-- C3 counterexample: a two-comment dataset whose second comment is assigned
every topic.  `topic_centered_comment_separation` gives it a NaN separation,
and that NaN is NOT excluded from the per-topic averaging: the code's
`np.mean` returns NaN (`none`), whereas the mean over only the non-NaN
separations (what the claim describes) is `5`. -/
theorem separationNaNNotExcluded_counterexample :
    topicCenteredSeparation (fun t c => if t = "topic2" ∧ c = "c1" then 5 else 9)
        [⟨1, "c1", ["topic1"]⟩, ⟨2, "c2", ["topic1", "topic2"]⟩] "topic1" = none ∧
    topicCenteredSeparationNanExcluded (fun t c => if t = "topic2" ∧ c = "c1" then 5 else 9)
        [⟨1, "c1", ["topic1"]⟩, ⟨2, "c2", ["topic1", "topic2"]⟩] "topic1" = some 5 ∧
    topicCenteredSeparation (fun t c => if t = "topic2" ∧ c = "c1" then 5 else 9)
        [⟨1, "c1", ["topic1"]⟩, ⟨2, "c2", ["topic1", "topic2"]⟩] "topic1" ≠
      topicCenteredSeparationNanExcluded (fun t c => if t = "topic2" ∧ c = "c1" then 5 else 9)
        [⟨1, "c1", ["topic1"]⟩, ⟨2, "c2", ["topic1", "topic2"]⟩] "topic1" := by
  refine ⟨?_, ?_, ?_⟩
  · norm_num +decide [topicCenteredSeparation, datasetTopics, uniqueFirst, getTopicComments,
      topicCenteredCommentSeparation, minDistTopic, npMeanNaN, List.filter, npMean]
  · norm_num +decide [topicCenteredSeparationNanExcluded, datasetTopics, uniqueFirst,
      getTopicComments, topicCenteredCommentSeparation, minDistTopic, npMeanNaN, List.filter,
      npMean, List.filterMap_cons, List.filterMap_nil]
  · norm_num +decide [topicCenteredSeparation, topicCenteredSeparationNanExcluded,
      datasetTopics, uniqueFirst, getTopicComments, topicCenteredCommentSeparation,
      minDistTopic, npMeanNaN, List.filter, npMean, List.filterMap_cons, List.filterMap_nil]

/-- C3 amended: a comment assigned every topic gets a NaN separation, from
both `topic_centered_comment_separation` and
`CentroidSilhouette.comment_separation`; that NaN is NOT excluded from
averaging — `np.mean` includes it, so `topic_centered_separation` (resp.
`topic_separation`) returns NaN for any topic one of whose assigned comments
is assigned every dataset topic. -/
theorem separationNaNPropagates :
    (∀ (d : String → String → ℚ) (r : Record) (topics : List String),
        (∀ t ∈ topics, t ∈ r.topics) →
        topicCenteredCommentSeparation d r topics = (none, none)) ∧
    (∀ (d : String → String → ℚ) (comments : List Record) (topicName : String) (r : Record),
        r ∈ comments → topicName ∈ r.topics →
        (∀ t ∈ datasetTopics comments, t ∈ r.topics) →
        topicCenteredSeparation d comments topicName = none) ∧
    (∀ (emb : String → List ℚ) (dvec : List ℚ → String → ℚ)
        (s : CentroidSilhouette) (r : Record),
        (∀ t ∈ s.topics, t ∈ r.topics) →
        (s.commentSeparation emb dvec r).1 = (none, none)) ∧
    (∀ (emb : String → List ℚ) (dvec : List ℚ → String → ℚ)
        (s : CentroidSilhouette) (topicName : String) (r : Record),
        r ∈ getTopicComments s.comments topicName →
        (∀ t ∈ s.topics, t ∈ r.topics) →
        (s.topicSeparation emb dvec topicName).1 = none) := by
  refine ⟨commentSeparation_all_assigned, topicCenteredSeparation_nan,
    fun emb dvec s r h => ?_, centroidTopicSeparation_nan⟩
  rw [centroidCommentSeparation_all_assigned emb dvec s r h]

/-- Witness for the amended C3, at the concrete dataset of the
counterexample: the all-topics comment `c2` and the constant oracles. -/
theorem separationNaNPropagates_witness :
    topicCenteredCommentSeparation (fun _ _ => 9) ⟨2, "c2", ["topic1", "topic2"]⟩
        ["topic1", "topic2"] = (none, none) ∧
    topicCenteredSeparation (fun _ _ => 9)
        [⟨1, "c1", ["topic1"]⟩, ⟨2, "c2", ["topic1", "topic2"]⟩] "topic2" = none ∧
    ((CentroidSilhouette.init
        [⟨1, "c1", ["topic1"]⟩, ⟨2, "c2", ["topic1", "topic2"]⟩]).commentSeparation
            (fun _ => [1]) (fun _ _ => 9) ⟨2, "c2", ["topic1", "topic2"]⟩).1
      = (none, none) ∧
    ((CentroidSilhouette.init
        [⟨1, "c1", ["topic1"]⟩, ⟨2, "c2", ["topic1", "topic2"]⟩]).topicSeparation
            (fun _ => [1]) (fun _ _ => 9) "topic2").1 = none :=
  ⟨separationNaNPropagates.1 (fun _ _ => 9) ⟨2, "c2", ["topic1", "topic2"]⟩
      ["topic1", "topic2"] (by decide),
    separationNaNPropagates.2.1 (fun _ _ => 9)
      [⟨1, "c1", ["topic1"]⟩, ⟨2, "c2", ["topic1", "topic2"]⟩] "topic2"
      ⟨2, "c2", ["topic1", "topic2"]⟩ (by decide) (by decide) (by decide),
    separationNaNPropagates.2.2.1 (fun _ => [1]) (fun _ _ => 9) _
      ⟨2, "c2", ["topic1", "topic2"]⟩ (by decide),
    separationNaNPropagates.2.2.2 (fun _ => [1]) (fun _ _ => 9) _ "topic2"
      ⟨2, "c2", ["topic1", "topic2"]⟩ (by decide) (by decide)⟩

/-! ### C9: in-place mutation and aliasing of `convert_topics_col_to_list` -/

/-- C9: `convert_topics_col_to_list` mutates the DataFrame it receives a
reference to — the heap cell at `p` afterwards holds the parsed topics lists
instead of the raw strings, with the `comment-id` and `comment_text` columns
unchanged — returns that very same reference `p` (not a copy: the heap grows
no new object), and leaves every other heap cell untouched. -/
theorem convertTopicsColToList_in_place (h : DFHeap) (p : Nat) (df : DataFrameObj)
    (vals : List String) (hget : List.get? h p = some df)
    (hraw : df.topicsCol = .raw vals) :
    convertTopicsColToList h p =
      some (List.set h p
        ⟨.parsed (vals.map convertTopicsEntry), df.commentIds, df.commentTexts⟩, p) ∧
    List.get?
        (List.set h p
          ⟨.parsed (vals.map convertTopicsEntry), df.commentIds, df.commentTexts⟩) p =
      some ⟨.parsed (vals.map convertTopicsEntry), df.commentIds, df.commentTexts⟩ ∧
    (List.set h p
        ⟨.parsed (vals.map convertTopicsEntry), df.commentIds, df.commentTexts⟩).length =
      h.length ∧
    ∀ q : Nat, q ≠ p →
      List.get?
          (List.set h p
            ⟨.parsed (vals.map convertTopicsEntry), df.commentIds, df.commentTexts⟩) q =
        List.get? h q := by
  refine ⟨?_, ?_, List.length_set h p _, fun q hq => List.get?_set_ne _ h hq.symm⟩
  · rw [convertTopicsColToList, hget, Option.some_bind, convertTopicsDF, hraw]
  · rw [List.get?_set_eq, hget, Option.map_eq_map, Option.map_some']

/-- Witness for C9 at a one-object heap holding a raw topics column. -/
theorem convertTopicsColToList_in_place_witness :
    convertTopicsColToList [⟨.raw ["a:b;c"], [1], ["txt"]⟩] 0 =
      some ([⟨.parsed [["a", "c"]], [1], ["txt"]⟩], 0) :=
  (convertTopicsColToList_in_place [⟨.raw ["a:b;c"], [1], ["txt"]⟩] 0
    ⟨.raw ["a:b;c"], [1], ["txt"]⟩ ["a:b;c"] rfl rfl).1

end SensemakingEvals
